import Mathlib

/-!
Verification of the content pipeline of `scripts/generate_site.py`, a static
site generator: document loading, front-matter validation, excerpt
computation, date parsing, post ordering, and artifact (sitemap / robots /
headers) generation.

Python `str` values are modelled as lists of characters (`Chars`), matching
Python's view of a string as a sequence of code points; Python slicing,
`strip`, `split` and friends become list operations.  Fallible code returns
`Except`; the orchestrator (`main`) is modelled as a function on an abstract
filesystem state `FS`.  External collaborators that are not part of the
repository (the Markdown engine, the Jinja templates, `urllib.parse.urljoin`)
are modelled from the spec's narrow contracts, as documented at each
definition.
-/

set_option maxRecDepth 20000

deriving instance DecidableEq for Except

namespace GenSite

/-- Python strings as lists of characters. -/
abbrev Chars := List Char

/-- Coerce a Lean string literal to the `Chars` model. -/
def str (s : String) : Chars := s.data

/-! ### Python string primitives used by `build_excerpt` (lines 114-119) -/

/-- The ASCII whitespace characters recognised by Python's `str.split()` and
`str.strip()` (the full Python repertoire also has some non-ASCII whitespace;
the repository's pipeline is modelled over this ASCII subset). -/
def pySpace (c : Char) : Bool :=
  c = ' ' || c = '\t' || c = '\n' || c = '\x0b' || c = '\x0c' || c = '\r'

/-- Worker for `splitlines`: accumulates the current line (reversed). -/
def splitlinesGo (acc : Chars) : Chars → List Chars
  | [] => if acc.isEmpty then [] else [acc.reverse]
  | '\r' :: '\n' :: rest => acc.reverse :: splitlinesGo [] rest
  | c :: rest =>
    if c = '\n' || c = '\r' || c = '\x0b' || c = '\x0c' then
      acc.reverse :: splitlinesGo [] rest
    else
      splitlinesGo (c :: acc) rest

/-- Python `str.splitlines()` over the ASCII line boundaries
`\n`, `\r`, `\r\n`, `\x0b`, `\x0c`: no trailing empty line is produced. -/
def splitlines (cs : Chars) : List Chars := splitlinesGo [] cs

/-- Python `str.strip()` (no argument): drop whitespace from both ends. -/
def pyStrip (cs : Chars) : Chars :=
  ((cs.dropWhile pySpace).reverse.dropWhile pySpace).reverse

/-- Python `str.rstrip()` (no argument): drop trailing whitespace. -/
def rstripWS (cs : Chars) : Chars :=
  (cs.reverse.dropWhile pySpace).reverse

/-- Worker for `pySplit`: accumulates the current token (reversed). -/
def pySplitGo (tok : Chars) : Chars → List Chars
  | [] => if tok.isEmpty then [] else [tok.reverse]
  | c :: rest =>
    if pySpace c then
      if tok.isEmpty then pySplitGo [] rest else tok.reverse :: pySplitGo [] rest
    else pySplitGo (c :: tok) rest

/-- Python `str.split()` (no argument): split on runs of whitespace,
producing no empty tokens. -/
def pySplit (cs : Chars) : List Chars := pySplitGo [] cs

/-- `" ".join(xs)`. -/
def joinSp (xs : List Chars) : Chars := List.intercalate [' '] xs

/-- Lines 115-116 of `generate_site.py`:
`plain = " ".join(line.strip() for line in text.splitlines())` followed by
`plain = " ".join(plain.split())`. -/
def collapseText (text : Chars) : Chars :=
  joinSp (pySplit (joinSp ((splitlines text).map pyStrip)))

/-- `build_excerpt` (lines 114-119); the `length` parameter defaults to 140
and every call site uses the default, so it is fixed here. -/
def build_excerpt (text : Chars) : Chars :=
  let plain := collapseText text
  if plain.length ≤ 140 then plain
  else rstripWS (plain.take (140 - 1)) ++ ['…']

/-! ### Dates: `datetime.strptime(value, "%Y-%m-%d")` (lines 18, 84, 89) -/

/-- A calendar date as produced by `datetime.strptime(_, "%Y-%m-%d")`. -/
structure PyDate where
  year : Nat
  month : Nat
  day : Nat
deriving DecidableEq

/-- Sort/comparison key of a date.  For the dates `strptimeYMD` produces
(`month ≤ 12`, `day ≤ 31`) this agrees with Python's field-lexicographic
`datetime` ordering. -/
def PyDate.key (d : PyDate) : Nat := d.year * 10000 + d.month * 100 + d.day

def digitVal (c : Char) : Nat := c.toNat - '0'.toNat

/-- `%Y` matches exactly four digits. -/
def parseYear : Chars → Option (Nat × Chars)
  | a :: b :: c :: d :: rest =>
    if a.isDigit && b.isDigit && c.isDigit && d.isDigit then
      some (digitVal a * 1000 + digitVal b * 100 + digitVal c * 10 + digitVal d, rest)
    else none
  | _ => none

/-- `%m` matches `1[0-2]|0[1-9]|[1-9]` (Python `_strptime`); the greedy
two-digit branches never need backtracking for this fixed format because the
following literal `-` cannot extend a digit match. -/
def parseMonth : Chars → Option (Nat × Chars)
  | [] => none
  | c :: rest =>
    if c = '1' then
      match rest with
      | c2 :: rest2 =>
        if c2 = '0' || c2 = '1' || c2 = '2' then some (10 + digitVal c2, rest2)
        else some (1, rest)
      | [] => some (1, [])
    else if c = '0' then
      match rest with
      | c2 :: rest2 => if '1' ≤ c2 && c2 ≤ '9' then some (digitVal c2, rest2) else none
      | [] => none
    else if '2' ≤ c && c ≤ '9' then some (digitVal c, rest)
    else none

/-- `%d` matches `3[01]|[12][0-9]|0[1-9]|[1-9]` (Python `_strptime`). -/
def parseDay : Chars → Option (Nat × Chars)
  | [] => none
  | c :: rest =>
    if c = '3' then
      match rest with
      | c2 :: rest2 =>
        if c2 = '0' || c2 = '1' then some (30 + digitVal c2, rest2)
        else some (3, rest)
      | [] => some (3, [])
    else if c = '1' || c = '2' then
      match rest with
      | c2 :: rest2 =>
        if c2.isDigit then some (digitVal c * 10 + digitVal c2, rest2)
        else some (digitVal c, rest)
      | [] => some (digitVal c, [])
    else if c = '0' then
      match rest with
      | c2 :: rest2 => if '1' ≤ c2 && c2 ≤ '9' then some (digitVal c2, rest2) else none
      | [] => none
    else if '4' ≤ c && c ≤ '9' then some (digitVal c, rest)
    else none

def isLeapYear (y : Nat) : Bool :=
  y % 4 = 0 && (y % 100 ≠ 0 || y % 400 = 0)

def daysInMonth (y m : Nat) : Nat :=
  if m = 2 then (if isLeapYear y then 29 else 28)
  else if m = 4 || m = 6 || m = 9 || m = 11 then 30
  else 31

/-- `datetime.strptime(s, "%Y-%m-%d")`: the fixed-format parse used on lines
84 and 89.  The whole input must be consumed; after the regex match the
`datetime` constructor additionally requires `1 ≤ year` and a day that exists
in the given month, else `ValueError` (modelled as `none`). -/
def strptimeYMD (s : Chars) : Option PyDate :=
  match parseYear s with
  | none => none
  | some (y, r1) =>
    match r1 with
    | '-' :: r2 =>
      match parseMonth r2 with
      | none => none
      | some (m, r3) =>
        match r3 with
        | '-' :: r4 =>
          match parseDay r4 with
          | none => none
          | some (d, r5) =>
            if r5 = [] && 1 ≤ y && d ≤ daysInMonth y m then some ⟨y, m, d⟩
            else none
        | _ => none
    | _ => none

/-! ### The data model: front matter, documents, posts -/

/-- The front-matter fields consulted by `load_posts`.  A value of `none`
models an absent key; `some []` models a present-but-empty string value. -/
structure Meta where
  title : Option Chars
  slug : Option Chars
  date : Option Chars
  updated : Option Chars
  draft : Bool
deriving DecidableEq

/-- One source document: filename stem (`path.stem`), front matter, and raw
Markdown body.  Documents are presented to `load_posts` in discovery order
(the lexicographic `sorted(posts_dir.rglob("*.md"))` order). -/
structure Doc where
  stem : Chars
  meta : Meta
  body : Chars
deriving DecidableEq

/-- The `Post` dataclass (lines 24-39). -/
structure Post where
  title : Chars
  slug : Chars
  date : PyDate
  updated : Option PyDate
  content : Chars
  excerpt : Chars
deriving DecidableEq

/-- Python `meta.get(k) or path.stem` (lines 80, 91): `None` and the empty
string are falsy, so both fall back to the stem. -/
def orStem (v : Option Chars) (stem : Chars) : Chars :=
  match v with
  | none => stem
  | some s => if s = [] then stem else s

/-- Truthiness filter for a front-matter value: `none` for an absent key or
an empty string (both falsy in the `if not raw_date` / `if updated_value`
tests on lines 82 and 88), the value otherwise. -/
def truthy (v : Option Chars) : Option Chars :=
  match v with
  | none => none
  | some s => if s = [] then none else some s

/-- Modelled from the spec: the Markdown collaborator (the `markdown`
package, not part of the repository) exposes a `reset` operation restoring a
converter instance to its freshly-constructed initial state; line 94 invokes
it before every conversion. -/
def mdReset {σ : Type} (init : σ) (_s : σ) : σ := init

/-- Lines 86-89: `updated = None`, overwritten by a parse only when the
`updated` value is truthy; a malformed truthy value raises. -/
def parseUpdated (v : Option Chars) : Except Chars (Option PyDate) :=
  match truthy v with
  | none => .ok none
  | some u =>
    match strptimeYMD u with
    | none => .error (str "time data does not match format '%Y-%m-%d': " ++ u)
    | some ud => .ok (some ud)

/-- The per-document body of the `load_posts` loop for a non-draft document
(lines 80-108), threading the converter state `s`: resolve `title`, require
and parse `date`, optionally parse `updated`, resolve `slug`, reset the
converter, convert the body, compute the excerpt. -/
def mkPost {σ : Type} (init : σ) (conv : σ → Chars → Chars × σ) (s : σ)
    (doc : Doc) : Except Chars (Post × σ) :=
  let title := orStem doc.meta.title doc.stem
  match truthy doc.meta.date with
  | none => .error (str "Missing 'date' in front matter: " ++ doc.stem)
  | some rawDate =>
    match strptimeYMD rawDate with
    | none => .error (str "time data does not match format '%Y-%m-%d': " ++ rawDate)
    | some date =>
      match parseUpdated doc.meta.updated with
      | .error e => .error e
      | .ok updated =>
        let slug := orStem doc.meta.slug doc.stem
        let s1 := mdReset init s
        let hs := conv s1 doc.body
        let excerpt := build_excerpt doc.body
        .ok (⟨title, slug, date, updated, hs.1, excerpt⟩, hs.2)

/-- The `for path in sorted(posts_dir.rglob("*.md"))` loop of `load_posts`
(lines 73-108): drafts are skipped (lines 77-78), the first failing document
aborts the whole load, and the converter state is threaded through the
iterations. -/
def collectPosts {σ : Type} (init : σ) (conv : σ → Chars → Chars × σ) :
    List Doc → σ → Except Chars (List Post)
  | [], _ => .ok []
  | doc :: rest, s =>
    if doc.meta.draft then collectPosts init conv rest s
    else
      match mkPost init conv s doc with
      | .error e => .error e
      | .ok ps' =>
        match collectPosts init conv rest ps'.2 with
        | .error e => .error e
        | .ok ps => .ok (ps'.1 :: ps)

/-- Descending-by-date comparison used by
`posts.sort(key=lambda p: p.date, reverse=True)` (line 110). -/
def postLE (p q : Post) : Bool := decide (q.date.key ≤ p.date.key)

/-- Line 110: CPython's `list.sort` with `reverse=True` is the stable
descending sort (equal keys keep their relative order); `List.mergeSort`
with `postLE` — which takes the left element on ties — is exactly that
stable descending sort, and stable sorts under a fixed key are extensionally
unique. -/
def sortPosts (ps : List Post) : List Post := ps.mergeSort postLE

/-- `load_posts` (lines 65-111): a missing posts directory yields `[]`
(lines 67-68); otherwise run the loop from a freshly constructed converter
and stably sort the result by date, descending. -/
def load_posts {σ : Type} (init : σ) (conv : σ → Chars → Chars × σ)
    (postsDir : Option (List Doc)) : Except Chars (List Post) :=
  match postsDir with
  | none => .ok []
  | some docs =>
    match collectPosts init conv docs init with
    | .error e => .error e
    | .ok ps => .ok (sortPosts ps)

/-! ### Site artifacts (lines 168-206) -/

/-- `s.rstrip("/")`. -/
def rstripSlashes (s : Chars) : Chars := (s.reverse.dropWhile (· = '/')).reverse

/-- `s.lstrip("/")`. -/
def lstripSlashes (s : Chars) : Chars := s.dropWhile (· = '/')

/-- Modelled from the spec: `urllib.parse.urljoin` is an external collaborator
(not part of the repository); the spec says each route is resolved against
the base URL "ensuring exactly one slash between base and route".  For the
references this program forms — a base ending in `/` and a relative
reference with no scheme, no authority and no dot segments (or the empty
string, for the index route) — RFC 3986 resolution appends the reference to
the base. -/
def urljoin (base ref : Chars) : Chars := base ++ ref

/-- Lines 169-170 of `generate_sitemap`: the list of absolute URLs, one per
route, in route order. -/
def sitemapItems (base_url : Chars) (routes : List Chars) : List Chars :=
  let base := rstripSlashes base_url ++ ['/']
  routes.map (fun route => urljoin base (lstripSlashes route))

/-- `generate_sitemap` (lines 168-181): the list of output lines — XML
header, one three-line `url` block per item in item order, closing tag. -/
def generate_sitemap (base_url : Chars) (routes : List Chars) : List Chars :=
  [str "<?xml version=\"1.0\" encoding=\"UTF-8\"?>",
   str "<urlset xmlns=\"http://www.sitemaps.org/schemas/sitemap/0.9\">"]
  ++ (sitemapItems base_url routes).flatMap
      (fun loc => [str "  <url>", str "    <loc>" ++ loc ++ str "</loc>", str "  </url>"])
  ++ [str "</urlset>"]

/-- `"\n".join(lines)`. -/
def joinNL (xs : List Chars) : Chars := List.intercalate ['\n'] xs

/-- Line 182: the text written to `sitemap.xml`. -/
def sitemapText (base_url : Chars) (routes : List Chars) : Chars :=
  joinNL (generate_sitemap base_url routes) ++ ['\n']

/-- `generate_robots` (lines 185-192): the text written to `robots.txt`. -/
def generate_robots (base_url : Chars) : Chars :=
  joinNL [str "User-agent: *", str "Allow: /",
          str "Sitemap: " ++ rstripSlashes base_url ++ str "/sitemap.xml", []]

/-- `generate_headers` (lines 195-206): the fixed text written to `_headers`. -/
def generate_headers : Chars :=
  joinNL [str "/*", str "  Cache-Control: no-cache", [],
          str "/assets/*",
          str "  Cache-Control: public, max-age=31536000, immutable", []]

/-! ### Rendering (lines 150-165) -/

/-- Modelled from the spec: the repository's Jinja template files
(`templates/post.html`, `templates/index.html`) are not under `src/`; per
the spec the templating collaborator deterministically renders the "post"
template against the context of post, site title and site description.
Rendering is modelled as a total function of exactly that context. -/
def renderPost (p : Post) (site_title : Chars) (site_description : Option Chars) : Chars :=
  str "<post>" ++ site_title ++ site_description.getD [] ++ p.title ++ p.content

/-- Modelled from the spec: as `renderPost`, for the "index" template, whose
context is the full ordered post list, site title and site description. -/
def renderIndex (posts : List Post) (site_title : Chars)
    (site_description : Option Chars) : Chars :=
  str "<index>" ++ site_title ++ site_description.getD []
    ++ (posts.map (fun p => p.title ++ p.excerpt)).flatten

/-- `generate_posts` (lines 150-158): the written pages (path stem and
content, in emission order) and the returned route list, in post order. -/
def generate_posts (posts : List Post) (site_title : Chars)
    (site_description : Option Chars) : List (Chars × Chars) × List Chars :=
  (posts.map (fun p =>
     (str "posts/" ++ p.slug ++ str ".html", renderPost p site_title site_description)),
   posts.map (fun p => str "/posts/" ++ p.slug ++ str ".html"))

/-! ### The orchestrator `main` (lines 209-247) over an abstract filesystem -/

/-- The YAML configuration mapping: the three keys `main` consults.  `none`
models an absent key. -/
structure Config where
  site_title : Option Chars
  base_url : Option Chars
  site_description : Option Chars
deriving DecidableEq

/-- Contents of an assets directory tree, copied verbatim and otherwise
opaque to the program. -/
abbrev Assets := Chars

/-- The output directory: the artifacts `main` writes beneath `--out`. -/
structure OutDir where
  indexHtml : Option Chars
  postPages : List (Chars × Chars)
  assets : Option Assets
  sitemap : Option Chars
  robots : Option Chars
  headersFile : Option Chars
deriving DecidableEq

/-- The empty output directory produced by `ensure_empty_directory`. -/
def OutDir.empty : OutDir := ⟨none, [], none, none, none, none⟩

/-- The parts of the filesystem `main` reads and writes: the config file at
`--config`, the documents under `<src>/posts` in discovery order, the assets
trees at `<src>/assets` and `<project_root>/assets`, and the `--out`
directory. -/
structure FS where
  configFile : Option Config
  postsDir : Option (List Doc)
  srcAssets : Option Assets
  rootAssets : Option Assets
  out : Option OutDir
deriving DecidableEq

/-- The outcome of a build: success, or an error together with the
filesystem state at the moment the exception escaped. -/
inductive BuildResult where
  | ok (fs : FS)
  | err (msg : Chars) (fs : FS)
deriving DecidableEq

/-- Modelled from the spec: the Markdown collaborator is a black box whose
output may depend on accumulated per-instance state (heading-anchor / TOC
counters).  The state is modelled as a counter and the conversion records
the state it ran with in its output, so that any cross-document state
leakage would be observable in the produced HTML. -/
def mdConvert (s : Nat) (text : Chars) : Chars × Nat :=
  (str "<md " ++ Nat.toDigits 10 s ++ str "> " ++ text, s + 1)

/-- The output directory a successful build leaves behind, as a function of
the configuration (with its defaults from lines 219-221), the loaded posts
and the project-root assets: index page, post pages, copied assets, sitemap
and robots against the configured or placeholder base URL, headers file. -/
def mainOut (config : Config) (posts : List Post) (root : Option Assets) : OutDir :=
  let site_title := config.site_title.getD (str "My Blog")
  let base_url := config.base_url.getD []
  let site_description := config.site_description
  let pr := generate_posts posts site_title site_description
  let routes := str "/" :: pr.2
  let bu := if base_url = [] then str "https://example.com" else base_url
  { indexHtml := some (renderIndex posts site_title site_description)
    postPages := pr.1
    assets := root
    sitemap := some (sitemapText bu routes)
    robots := some (generate_robots bu)
    headersFile := some generate_headers }

/-- `main` (lines 209-247): read config (line 218; a missing file raises
before anything else happens), reset the output directory (line 223), load
posts (line 225), then render index and posts, copy assets from the project
root (line 237), and generate sitemap, robots — with the
`https://example.com` placeholder when `base_url` is falsy (lines 239-245) —
and the headers file (line 247). -/
def main (fs : FS) : BuildResult :=
  match fs.configFile with
  | none => .err (str "Config file not found") fs
  | some config =>
    let fs1 : FS := { fs with out := some OutDir.empty }
    match load_posts 0 mdConvert fs1.postsDir with
    | .error e => .err e fs1
    | .ok posts => .ok { fs1 with out := some (mainOut config posts fs1.rootAssets) }

/-! ### Derived views of the build used by the theorems -/

/-- The source tree with every draft document deleted. -/
def dropDrafts (fs : FS) : FS :=
  { fs with postsDir := fs.postsDir.map (fun docs => docs.filter (fun d => !d.meta.draft)) }

/-- Apply a function to the filesystem inside a build result. -/
def BuildResult.mapFS (f : FS → FS) : BuildResult → BuildResult
  | .ok fs => .ok (f fs)
  | .err e fs => .err e (f fs)

/-- Normalise every falsy (absent or empty) front-matter value to the absent
key. -/
def normFalsy (doc : Doc) : Doc :=
  { doc with meta := { doc.meta with
      title := truthy doc.meta.title
      slug := truthy doc.meta.slug
      date := truthy doc.meta.date
      updated := truthy doc.meta.updated } }

/-- A route of the shape `main` produces: a single leading slash. -/
def routeOneSlash (r : Chars) : Bool :=
  decide (r.head? = some '/') && !decide (r.tail.head? = some '/')

/-! ### Concrete inputs used by the witnesses and counterexamples -/

/-- 141 characters, no whitespace. -/
def excerptLongText : Chars := List.replicate 141 'a'

/-- 149 characters, already whitespace-collapsed, whose 139-character prefix
ends in a space. -/
def excerptCexText : Chars := List.replicate 138 'a' ++ ' ' :: List.replicate 10 'b'

/-- A pre-existing, non-empty output directory. -/
def outPrev : OutDir := ⟨some (str "old index"), [], none, none, none, none⟩

def fsNoConfig : FS := ⟨none, none, none, none, some outPrev⟩

/-- A config file with no `base_url`. -/
def cfgNoBase : Config := ⟨some (str "T"), none, none⟩

/-- Source tree with an `assets` directory under `--src` but none at the
project root. -/
def fsSrcAssetsOnly : FS := ⟨some cfgNoBase, none, some (str "logo.png"), none, none⟩

def fsNoBase : FS := ⟨some cfgNoBase, none, none, none, some outPrev⟩

def docDraft : Doc := ⟨str "secret", ⟨some (str "S"), none, some (str "2024-01-01"), none, true⟩, str "shh"⟩

def docGood : Doc := ⟨str "hello", ⟨some (str "Hi"), none, some (str "2024-01-02"), none, false⟩, str "hi"⟩

/-- The post `docGood` produces under the `mdConvert` model. -/
def postGood : Post := ⟨str "Hi", str "hello", ⟨2024, 1, 2⟩, none, str "<md 0> hi", str "hi"⟩

def docNoDate : Doc := ⟨str "nodate", ⟨none, none, none, none, false⟩, str "x"⟩

/-- Empty `title`, `slug` and `updated` values, with a valid date. -/
def docFalsy : Doc := ⟨str "stemmy", ⟨some [], some [], some (str "2024-05-06"), some [], false⟩, str "b"⟩

def docA : Doc := ⟨str "a", ⟨some (str "A"), none, some (str "2024-03-01"), none, false⟩, str "aa"⟩

def docB : Doc := ⟨str "b", ⟨some (str "B"), none, some (str "2024-03-01"), none, false⟩, str "bb"⟩

def postA : Post := ⟨str "A", str "a", ⟨2024, 3, 1⟩, none, str "<md 0> aa", str "aa"⟩

def postB : Post := ⟨str "B", str "b", ⟨2024, 3, 1⟩, none, str "<md 0> bb", str "bb"⟩

/-! ## Theorems -/

theorem length_dropWhile_le {α : Type} (p : α → Bool) :
    ∀ l : List α, (l.dropWhile p).length ≤ l.length := by
  intro l
  induction l with
  | nil => simp
  | cons a t ih =>
    rw [List.dropWhile_cons]
    split
    · exact Nat.le_trans ih (Nat.le_succ _)
    · exact Nat.le_refl _

theorem rstripWS_length_le (l : Chars) : (rstripWS l).length ≤ l.length := by
  have h := length_dropWhile_le pySpace l.reverse
  simp [rstripWS] at h ⊢
  exact h

/-- Claim C1 (amended): for every body text the excerpt has at most 140
characters; whenever the whitespace-collapsed body exceeds 140 characters,
the excerpt is the first 139 characters of the collapsed text with trailing
whitespace stripped, followed by a single ellipsis character — so the
pre-ellipsis portion has length at most 139 (exactly 139 except when the
139-character prefix ends in whitespace, which `rstrip()` removes). -/
theorem excerpt_length_bounded (text : Chars) :
    (build_excerpt text).length ≤ 140
  ∧ (140 < (collapseText text).length →
      build_excerpt text = rstripWS ((collapseText text).take 139) ++ ['…']
      ∧ (rstripWS ((collapseText text).take 139)).length ≤ 139) := by
  have htake : (rstripWS ((collapseText text).take 139)).length ≤ 139 :=
    Nat.le_trans (rstripWS_length_le _) (List.length_take_le 139 _)
  constructor
  · by_cases h : (collapseText text).length ≤ 140
    · simp [build_excerpt, h]
    · have : build_excerpt text = rstripWS ((collapseText text).take 139) ++ ['…'] := by
        simp [build_excerpt, h]
      rw [this]
      simp only [List.length_append, List.length_singleton]
      omega
  · intro h
    have hn : ¬ (collapseText text).length ≤ 140 := by omega
    exact ⟨by simp [build_excerpt, hn], htake⟩

theorem excerpt_length_bounded_witness :
    140 < (collapseText excerptLongText).length
  ∧ build_excerpt excerptLongText
      = rstripWS ((collapseText excerptLongText).take 139) ++ ['…'] := by
  have hlen : 140 < (collapseText excerptLongText).length := by decide
  exact ⟨hlen, ((excerpt_length_bounded excerptLongText).2 hlen).1⟩

/-- Claim C1 counterexample: for this body the collapsed text has 149 > 140
characters and the excerpt does end with the ellipsis, but its pre-ellipsis
portion has 138 characters, not 139 — the 139-character prefix ends in a
space which `rstrip()` removes before the ellipsis is appended. -/
theorem excerpt_pre_ellipsis_not_139 :
    (collapseText excerptCexText).length = 149
  ∧ build_excerpt excerptCexText = List.replicate 138 'a' ++ ['…']
  ∧ ¬ ∃ pre : Chars, build_excerpt excerptCexText = pre ++ ['…'] ∧ pre.length = 139 := by
  refine ⟨by decide, by decide, ?_⟩
  rintro ⟨pre, h1, h2⟩
  have hl : (build_excerpt excerptCexText).length = 139 := by decide
  rw [h1] at hl
  simp only [List.length_append, List.length_singleton, h2] at hl
  omega

/-- Claim C7: if the configuration file is absent, the build aborts with the
`read_config` error before any output is touched: `main` returns the error
together with the filesystem — including any pre-existing output directory —
exactly as it found it. -/
theorem missing_config_aborts (fs : FS) (h : fs.configFile = none) :
    main fs = .err (str "Config file not found") fs := by
  simp [main, h]

theorem missing_config_aborts_witness :
    main fsNoConfig = .err (str "Config file not found") fsNoConfig :=
  missing_config_aborts fsNoConfig rfl

/-- Characterization of a successful build: `main fs = .ok fs'` exactly when
the config file is present, the posts load, and `fs'` is `fs` with the fully
regenerated output directory. -/
theorem main_ok_iff (fs fs' : FS) :
    main fs = .ok fs' ↔
    ∃ config posts, fs.configFile = some config
      ∧ load_posts 0 mdConvert fs.postsDir = .ok posts
      ∧ fs' = { fs with out := some (mainOut config posts fs.rootAssets) } := by
  unfold main
  cases hc : fs.configFile with
  | none => simp [hc]
  | some config =>
    cases hl : load_posts 0 mdConvert fs.postsDir with
    | error e => simp [hl, hc]
    | ok posts =>
      simp only [hl, hc]
      constructor
      · intro h
        injection h with h'
        exact ⟨config, posts, rfl, rfl, h'.symm⟩
      · rintro ⟨c2, p2, hc2, hp2, hfs'⟩
        injection hc2 with hcc
        injection hp2 with hpp
        subst hcc
        subst hpp
        rw [hfs']

/-- Claim C2 (amended): the assets copied into the output root come from the
project root directory (the parent of the `scripts` directory), not from the
`--src` content directory: on every successful build the output `assets`
tree equals the project root's `assets` tree (so it is absent exactly when
`<project_root>/assets` is absent, with no error either way), and the
`--src` directory's own `assets` subtree plays no role in the build. -/
theorem assets_copied_from_project_root (fs fs' : FS) (h : main fs = .ok fs') :
    (∃ od : OutDir, fs'.out = some od ∧ od.assets = fs.rootAssets)
  ∧ (∀ a : Option Assets,
      main { fs with srcAssets := a } = .ok { fs' with srcAssets := a })
  ∧ (∀ r : Option Assets,
      main { fs with rootAssets := r }
        = .ok { fs' with
                rootAssets := r
                out := fs'.out.map (fun od => { od with assets := r }) }) := by
  obtain ⟨config, posts, hc, hl, rfl⟩ := (main_ok_iff fs fs').mp h
  refine ⟨⟨mainOut config posts fs.rootAssets, rfl, rfl⟩, ?_, ?_⟩
  · intro a
    rw [main_ok_iff]
    exact ⟨config, posts, hc, hl, rfl⟩
  · intro r
    rw [main_ok_iff]
    exact ⟨config, posts, hc, hl, by simp [mainOut]⟩

theorem assets_copied_from_project_root_witness :
    ∃ fs' : FS, main fsSrcAssetsOnly = .ok fs'
      ∧ ∃ od : OutDir, fs'.out = some od ∧ od.assets = fsSrcAssetsOnly.rootAssets := by
  refine ⟨_, rfl, ?_⟩
  exact (assets_copied_from_project_root fsSrcAssetsOnly _ rfl).1

/-- Claim C2 counterexample: a filesystem whose `--src` directory has an
`assets` subdirectory but whose project root has none; the build succeeds
and the output contains no assets tree — the source assets were not
copied. -/
theorem assets_not_from_src_cex :
    fsSrcAssetsOnly.srcAssets = some (str "logo.png")
  ∧ ∃ fs' : FS, main fsSrcAssetsOnly = .ok fs'
      ∧ ∃ od : OutDir, fs'.out = some od ∧ od.assets = none :=
  ⟨rfl, _, rfl, _, rfl, rfl⟩

/-- Claim C8: when `base_url` is absent or empty in the configuration, the
sitemap and robots artifacts are still produced, generated against the
placeholder base `https://example.com`. -/
theorem placeholder_base_url (fs : FS) (config : Config) (posts : List Post)
    (hc : fs.configFile = some config)
    (hb : config.base_url = none ∨ config.base_url = some [])
    (hl : load_posts 0 mdConvert fs.postsDir = .ok posts) :
    ∃ fs' : FS, main fs = .ok fs' ∧ ∃ od : OutDir, fs'.out = some od
      ∧ od.sitemap = some (sitemapText (str "https://example.com")
          (str "/" :: (generate_posts posts (config.site_title.getD (str "My Blog"))
            config.site_description).2))
      ∧ od.robots = some (generate_robots (str "https://example.com")) := by
  refine ⟨_, (main_ok_iff fs _).mpr ⟨config, posts, hc, hl, rfl⟩,
    mainOut config posts fs.rootAssets, rfl, ?_, ?_⟩
  · rcases hb with hb | hb <;> simp [mainOut, hb]
  · rcases hb with hb | hb <;> simp [mainOut, hb]

theorem placeholder_base_url_witness :
    ∃ fs' : FS, main fsNoBase = .ok fs' ∧ ∃ od : OutDir, fs'.out = some od
      ∧ od.sitemap = some (sitemapText (str "https://example.com")
          (str "/" :: (generate_posts [] (cfgNoBase.site_title.getD (str "My Blog"))
            cfgNoBase.site_description).2))
      ∧ od.robots = some (generate_robots (str "https://example.com")) :=
  placeholder_base_url fsNoBase cfgNoBase [] rfl (Or.inl rfl) rfl

/-! ### Inversion lemmas for the document loader -/

/-- `mkPost` succeeds exactly when the date is present and parses and the
`updated` field parses; the produced post's fields and the next converter
state are determined by the document and the initial state alone — the
incoming state `s` is discarded by the reset. -/
theorem mkPost_ok_iff {σ : Type} (init : σ) (conv : σ → Chars → Chars × σ)
    (s : σ) (doc : Doc) (p : Post) (s' : σ) :
    mkPost init conv s doc = .ok (p, s') ↔
    ∃ rawDate d u, truthy doc.meta.date = some rawDate
      ∧ strptimeYMD rawDate = some d
      ∧ parseUpdated doc.meta.updated = .ok u
      ∧ p = ⟨orStem doc.meta.title doc.stem, orStem doc.meta.slug doc.stem, d, u,
             (conv init doc.body).1, build_excerpt doc.body⟩
      ∧ s' = (conv init doc.body).2 := by
  constructor
  · intro h
    unfold mkPost mdReset at h
    cases htd : truthy doc.meta.date with
    | none =>
      simp only [htd] at h
      exact Except.noConfusion h
    | some rawDate =>
      simp only [htd] at h
      cases hsd : strptimeYMD rawDate with
      | none =>
        simp only [hsd] at h
        exact Except.noConfusion h
      | some d =>
        simp only [hsd] at h
        cases hpu : parseUpdated doc.meta.updated with
        | error e =>
          simp only [hpu] at h
          exact Except.noConfusion h
        | ok u =>
          simp only [hpu, Except.ok.injEq, Prod.mk.injEq] at h
          exact ⟨rawDate, d, u, rfl, hsd, rfl, h.1.symm, h.2.symm⟩
  · rintro ⟨r, d, u, hr, hd, hu, hp, hs'⟩
    subst hp
    subst hs'
    unfold mkPost mdReset
    simp only [hr, hd, hu]

/-- `mkPost` is independent of the incoming converter state: the reset on
line 94 discards it. -/
theorem mkPost_state_irrel {σ : Type} (init : σ) (conv : σ → Chars → Chars × σ)
    (s t : σ) (doc : Doc) : mkPost init conv s doc = mkPost init conv t doc := rfl

/-- If the document's date is falsy or does not parse, `mkPost` fails. -/
theorem mkPost_error_of_bad_date {σ : Type} (init : σ) (conv : σ → Chars → Chars × σ)
    (s : σ) (doc : Doc)
    (h : ∀ r, truthy doc.meta.date = some r → strptimeYMD r = none) :
    ∃ e, mkPost init conv s doc = .error e := by
  unfold mkPost
  cases htd : truthy doc.meta.date with
  | none => exact ⟨_, rfl⟩
  | some r =>
    simp only [h r htd]
    exact ⟨_, rfl⟩

/-- If the document has a truthy `updated` value that does not parse,
`mkPost` fails (with this error if the date was fine, with the date's error
otherwise). -/
theorem mkPost_error_of_bad_updated {σ : Type} (init : σ) (conv : σ → Chars → Chars × σ)
    (s : σ) (doc : Doc) (u : Chars)
    (hu : truthy doc.meta.updated = some u) (hp : strptimeYMD u = none) :
    ∃ e, mkPost init conv s doc = .error e := by
  unfold mkPost
  cases htd : truthy doc.meta.date with
  | none => exact ⟨_, rfl⟩
  | some r =>
    cases hsd : strptimeYMD r with
    | none =>
      simp only [hsd]
      exact ⟨_, rfl⟩
    | some d =>
      have hpe : parseUpdated doc.meta.updated
          = .error (str "time data does not match format '%Y-%m-%d': " ++ u) := by
        unfold parseUpdated
        simp only [hu, hp]
      simp only [hsd, hpe]
      exact ⟨_, rfl⟩

/-- Every post an `.ok` run of the loop produces comes, via `mkPost`, from a
non-draft document of the input list. -/
theorem collectPosts_mem {σ : Type} (init : σ) (conv : σ → Chars → Chars × σ) :
    ∀ (docs : List Doc) (s : σ) (ps : List Post),
      collectPosts init conv docs s = .ok ps → ∀ p ∈ ps,
      ∃ doc, doc ∈ docs ∧ doc.meta.draft = false
        ∧ ∃ s1 s2 : σ, mkPost init conv s1 doc = .ok (p, s2) := by
  intro docs
  induction docs with
  | nil =>
    intro s ps h p hp
    injection h with h'
    subst h'
    cases hp
  | cons doc rest ih =>
    intro s ps h p hp
    rw [collectPosts] at h
    by_cases hd : doc.meta.draft = true
    · rw [if_pos hd] at h
      obtain ⟨d2, hmem, hnd, w⟩ := ih s ps h p hp
      exact ⟨d2, List.mem_cons_of_mem _ hmem, hnd, w⟩
    · rw [if_neg hd] at h
      cases hmk : mkPost init conv s doc with
      | error e =>
        simp only [hmk] at h
        exact Except.noConfusion h
      | ok pr =>
        simp only [hmk] at h
        cases hrest : collectPosts init conv rest pr.2 with
        | error e =>
          simp only [hrest] at h
          exact Except.noConfusion h
        | ok ps2 =>
          simp only [hrest, Except.ok.injEq] at h
          subst h
          rcases List.mem_cons.mp hp with rfl | hp2
          · exact ⟨doc, List.mem_cons_self _ _, Bool.not_eq_true _ ▸ hd, s, pr.2, hmk⟩
          · obtain ⟨d2, hmem, hnd, w⟩ := ih pr.2 ps2 hrest p hp2
            exact ⟨d2, List.mem_cons_of_mem _ hmem, hnd, w⟩

/-- If some non-draft document of the list makes `mkPost` fail, the whole
loop fails, whatever the converter state. -/
theorem collectPosts_error_of_mem {σ : Type} (init : σ) (conv : σ → Chars → Chars × σ)
    (doc : Doc) (hnd : doc.meta.draft = false)
    (hbad : ∀ s : σ, ∃ e, mkPost init conv s doc = .error e) :
    ∀ docs : List Doc, doc ∈ docs → ∀ s : σ,
      ∃ e, collectPosts init conv docs s = .error e := by
  intro docs
  induction docs with
  | nil => intro h; cases h
  | cons d rest ih =>
    intro hmem s
    rw [collectPosts]
    rcases List.mem_cons.mp hmem with rfl | hmem2
    · rw [if_neg (by rw [hnd]; exact Bool.false_ne_true)]
      obtain ⟨e, he⟩ := hbad s
      rw [he]
      exact ⟨e, rfl⟩
    · by_cases hd : d.meta.draft = true
      · rw [if_pos hd]
        exact ih hmem2 s
      · rw [if_neg hd]
        cases hmk : mkPost init conv s d with
        | error e => exact ⟨e, rfl⟩
        | ok pr =>
          obtain ⟨e, he⟩ := ih hmem2 pr.2
          exact ⟨e, by simp only [he]⟩

/-- Deleting the drafts from the input list does not change the loop's
result at all. -/
theorem collectPosts_filter_drafts {σ : Type} (init : σ) (conv : σ → Chars → Chars × σ) :
    ∀ (docs : List Doc) (s : σ),
      collectPosts init conv (docs.filter (fun d => !d.meta.draft)) s
        = collectPosts init conv docs s := by
  intro docs
  induction docs with
  | nil => intro s; rfl
  | cons d rest ih =>
    intro s
    by_cases hd : d.meta.draft = true
    · rw [List.filter_cons_of_neg (by simp [hd])]
      rw [ih s, collectPosts, if_pos hd]
    · rw [List.filter_cons_of_pos (by simp [Bool.not_eq_true _ ▸ hd])]
      rw [collectPosts, collectPosts, if_neg hd, if_neg hd]
      cases hmk : mkPost init conv s d with
      | error e => rfl
      | ok pr => simp only [ih pr.2]

/-- Every post a successful `load_posts` returns comes, via `mkPost`, from a
non-draft document of the input. -/
theorem load_posts_mem {σ : Type} (init : σ) (conv : σ → Chars → Chars × σ)
    (docs : List Doc) (ps : List Post)
    (h : load_posts init conv (some docs) = .ok ps) :
    ∀ p ∈ ps, ∃ doc, doc ∈ docs ∧ doc.meta.draft = false
      ∧ ∃ s1 s2 : σ, mkPost init conv s1 doc = .ok (p, s2) := by
  intro p hp
  rw [load_posts] at h
  cases hcol : collectPosts init conv docs init with
  | error e => rw [hcol] at h; cases h
  | ok l =>
    rw [hcol] at h
    injection h with h'
    subst h'
    exact collectPosts_mem init conv docs init l hcol p (List.mem_mergeSort.mp hp)

/-- A failing loop makes `load_posts` fail. -/
theorem load_posts_error_of_collect {σ : Type} (init : σ) (conv : σ → Chars → Chars × σ)
    (docs : List Doc) (h : ∃ e, collectPosts init conv docs init = .error e) :
    ∃ e, load_posts init conv (some docs) = .error e := by
  obtain ⟨e, he⟩ := h
  rw [load_posts, he]
  exact ⟨e, rfl⟩

/-- Claim C4: a document marked as a draft produces no Post anywhere:
deleting every draft from the source tree leaves the entire build result —
posts list, rendered pages, sitemap routes, all artifacts — unchanged
(modulo the deleted sources themselves), and every post of a successful
`load_posts` arises, via `mkPost`, from a non-draft document. -/
theorem drafts_excluded_everywhere :
    (∀ fs : FS, main (dropDrafts fs) = (main fs).mapFS dropDrafts)
  ∧ (∀ {σ : Type} (init : σ) (conv : σ → Chars → Chars × σ)
       (docs : List Doc) (ps : List Post),
       load_posts init conv (some docs) = .ok ps → ∀ p ∈ ps,
       ∃ doc, doc ∈ docs ∧ doc.meta.draft = false
         ∧ ∃ s1 s2 : σ, mkPost init conv s1 doc = .ok (p, s2)) := by
  have hlpf : ∀ {σ : Type} (init : σ) (conv : σ → Chars → Chars × σ)
      (o : Option (List Doc)),
      load_posts init conv (o.map (fun docs => docs.filter (fun d => !d.meta.draft)))
        = load_posts init conv o := by
    intro σ init conv o
    cases o with
    | none => rfl
    | some docs =>
      show load_posts init conv (some (docs.filter (fun d => !d.meta.draft)))
          = load_posts init conv (some docs)
      rw [load_posts, load_posts, collectPosts_filter_drafts]
  constructor
  · intro fs
    have hc2 : (dropDrafts fs).configFile = fs.configFile := rfl
    have hpd2 : (dropDrafts fs).postsDir
        = fs.postsDir.map (fun docs => docs.filter (fun d => !d.meta.draft)) := rfl
    simp only [main]
    rw [hc2]
    cases hc : fs.configFile with
    | none => rfl
    | some config =>
      rw [hpd2, hlpf]
      cases hl : load_posts 0 mdConvert fs.postsDir with
      | error e => rfl
      | ok posts => rfl
  · intro σ init conv docs ps h p hp
    exact load_posts_mem init conv docs ps h p hp

theorem drafts_excluded_everywhere_witness :
    ∃ doc, doc ∈ [docDraft, docGood] ∧ doc.meta.draft = false
      ∧ ∃ s1 s2 : Nat, mkPost 0 mdConvert s1 doc = .ok (postGood, s2) := by
  have hload : load_posts 0 mdConvert (some [docDraft, docGood]) = .ok [postGood] := by
    have h1 : load_posts 0 mdConvert (some [docDraft, docGood])
        = .ok (sortPosts [postGood]) := rfl
    rw [h1, sortPosts, List.mergeSort]
  exact drafts_excluded_everywhere.2 0 mdConvert [docDraft, docGood] [postGood]
    hload postGood (List.mem_singleton.mpr rfl)

/-- Claim C9: the converter is reset before every conversion, so each
document is converted as if in total isolation: for any state type, initial
state and stateful conversion function, every post a successful `load_posts`
produces has as its HTML exactly what a fresh converter — one in the initial
state — produces on that document's body alone; no state from earlier
conversions can leak in. -/
theorem converter_reset_no_leak {σ : Type} (init : σ) (conv : σ → Chars → Chars × σ)
    (docs : List Doc) (ps : List Post)
    (h : load_posts init conv (some docs) = .ok ps) :
    ∀ p ∈ ps, ∃ doc, doc ∈ docs ∧ p.content = (conv init doc.body).1 := by
  intro p hp
  obtain ⟨doc, hmem, hnd, s1, s2, hmk⟩ := load_posts_mem init conv docs ps h p hp
  obtain ⟨r, d, u, -, -, -, hp2, -⟩ := (mkPost_ok_iff init conv s1 doc p s2).mp hmk
  exact ⟨doc, hmem, by rw [hp2]⟩

theorem converter_reset_no_leak_witness :
    ∃ doc, doc ∈ [docA, docB] ∧ postB.content = (mdConvert 0 doc.body).1 := by
  have hload : load_posts 0 mdConvert (some [docA, docB]) = .ok [postA, postB] := by
    have h1 : load_posts 0 mdConvert (some [docA, docB])
        = .ok (sortPosts [postA, postB]) := rfl
    rw [h1, sortPosts, List.mergeSort]
    simp [List.mergeSort, List.merge, postLE, postA, postB, PyDate.key]
  exact converter_reset_no_leak 0 mdConvert [docA, docB] [postA, postB] hload
    postB (by simp)

/-- Claim C5: for a non-draft document, a falsy `date`, a `date` that does
not parse as `YYYY-MM-DD`, or a truthy `updated` that does not parse, each
make the whole `load_posts` fail with an error (no partial posts list is
returned — `load_posts` returns either a list or an error by construction);
an absent `updated` yields a post with no updated date and causes no
error. -/
theorem date_validation {σ : Type} (init : σ) (conv : σ → Chars → Chars × σ)
    (docs : List Doc) (doc : Doc) (hmem : doc ∈ docs)
    (hnd : doc.meta.draft = false) :
    (doc.meta.date = none → ∃ e, load_posts init conv (some docs) = .error e)
  ∧ (∀ r, doc.meta.date = some r → strptimeYMD r = none →
      ∃ e, load_posts init conv (some docs) = .error e)
  ∧ (∀ u, truthy doc.meta.updated = some u → strptimeYMD u = none →
      ∃ e, load_posts init conv (some docs) = .error e)
  ∧ (doc.meta.updated = none →
      ∀ (s : σ) r d, truthy doc.meta.date = some r → strptimeYMD r = some d →
        ∃ p s', mkPost init conv s doc = .ok (p, s') ∧ p.updated = none) := by
  refine ⟨?_, ?_, ?_, ?_⟩
  · intro hdate
    refine load_posts_error_of_collect init conv docs
      (collectPosts_error_of_mem init conv doc hnd ?_ docs hmem init)
    intro s
    refine mkPost_error_of_bad_date init conv s doc ?_
    intro r hr
    rw [hdate] at hr
    simp [truthy] at hr
  · intro r hdate hbad
    refine load_posts_error_of_collect init conv docs
      (collectPosts_error_of_mem init conv doc hnd ?_ docs hmem init)
    intro s
    refine mkPost_error_of_bad_date init conv s doc ?_
    intro r2 hr2
    rw [hdate] at hr2
    simp only [truthy] at hr2
    by_cases hre : r = []
    · rw [if_pos hre] at hr2
      cases hr2
    · rw [if_neg hre] at hr2
      injection hr2 with hr3
      rw [← hr3]
      exact hbad
  · intro u hu hbad
    exact load_posts_error_of_collect init conv docs
      (collectPosts_error_of_mem init conv doc hnd
        (fun s => mkPost_error_of_bad_updated init conv s doc u hu hbad) docs hmem init)
  · intro hupd s r d hr hd
    refine ⟨⟨orStem doc.meta.title doc.stem, orStem doc.meta.slug doc.stem, d, none,
      (conv init doc.body).1, build_excerpt doc.body⟩, (conv init doc.body).2, ?_, rfl⟩
    refine (mkPost_ok_iff init conv s doc _ _).mpr ⟨r, d, none, hr, hd, ?_, rfl, rfl⟩
    rw [hupd]
    rfl

theorem date_validation_witness :
    ∃ e, load_posts 0 mdConvert (some [docNoDate]) = .error e :=
  (date_validation 0 mdConvert [docNoDate] docNoDate
    (List.mem_singleton.mpr rfl) rfl).1 rfl

/-! ### Falsy front-matter values (claim C10) -/

theorem truthy_idem (v : Option Chars) : truthy (truthy v) = truthy v := by
  cases v with
  | none => rfl
  | some s =>
    by_cases h : s = [] <;> simp [truthy, h]

theorem orStem_truthy (v : Option Chars) (stem : Chars) :
    orStem (truthy v) stem = orStem v stem := by
  cases v with
  | none => rfl
  | some s =>
    by_cases h : s = [] <;> simp [truthy, orStem, h]

theorem parseUpdated_truthy (v : Option Chars) :
    parseUpdated (truthy v) = parseUpdated v := by
  rw [parseUpdated.eq_def, parseUpdated.eq_def, truthy_idem]

/-- The per-document step does not distinguish falsy values from absent
keys. -/
theorem mkPost_normFalsy {σ : Type} (init : σ) (conv : σ → Chars → Chars × σ)
    (s : σ) (doc : Doc) :
    mkPost init conv s (normFalsy doc) = mkPost init conv s doc := by
  unfold mkPost
  simp only [normFalsy, truthy_idem, orStem_truthy, parseUpdated_truthy]

/-- Normalising falsy values to absent keys does not change the loop. -/
theorem collectPosts_normFalsy {σ : Type} (init : σ) (conv : σ → Chars → Chars × σ) :
    ∀ (docs : List Doc) (s : σ),
      collectPosts init conv (docs.map normFalsy) s = collectPosts init conv docs s := by
  intro docs
  induction docs with
  | nil => intro s; rfl
  | cons d rest ih =>
    intro s
    have hdr : (normFalsy d).meta.draft = d.meta.draft := rfl
    rw [List.map_cons, collectPosts, collectPosts, hdr, mkPost_normFalsy]
    by_cases hd : d.meta.draft = true
    · rw [if_pos hd, if_pos hd, ih]
    · rw [if_neg hd, if_neg hd]
      cases hmk : mkPost init conv s d with
      | error e => rfl
      | ok pr => simp only [ih pr.2]

/-- Claim C10: empty (falsy) front-matter values are treated exactly like
absent keys: normalising every falsy `title`/`slug`/`date`/`updated` value
to the absent key leaves `load_posts` unchanged on every input; a document
whose `title` or `slug` is present but empty falls back to the filename
stem; an empty `updated` value is never parsed and yields a post with no
updated date and no error. -/
theorem falsy_values_like_absent {σ : Type} (init : σ) (conv : σ → Chars → Chars × σ) :
    (∀ docs : List Doc,
       load_posts init conv (some (docs.map normFalsy)) = load_posts init conv (some docs))
  ∧ (∀ (doc : Doc) (s : σ) (p : Post) (s' : σ),
       (doc.meta.title = none ∨ doc.meta.title = some []) →
       mkPost init conv s doc = .ok (p, s') → p.title = doc.stem)
  ∧ (∀ (doc : Doc) (s : σ) (p : Post) (s' : σ),
       (doc.meta.slug = none ∨ doc.meta.slug = some []) →
       mkPost init conv s doc = .ok (p, s') → p.slug = doc.stem)
  ∧ (∀ (doc : Doc) (s : σ), doc.meta.updated = some [] →
       ∀ r d, truthy doc.meta.date = some r → strptimeYMD r = some d →
       ∃ p s', mkPost init conv s doc = .ok (p, s') ∧ p.updated = none) := by
  refine ⟨?_, ?_, ?_, ?_⟩
  · intro docs
    rw [load_posts, load_posts, collectPosts_normFalsy]
  · intro doc s p s' ht h
    obtain ⟨r, d, u, -, -, -, hp, -⟩ := (mkPost_ok_iff init conv s doc p s').mp h
    rw [hp]
    rcases ht with ht | ht <;> simp [orStem, ht]
  · intro doc s p s' hs h
    obtain ⟨r, d, u, -, -, -, hp, -⟩ := (mkPost_ok_iff init conv s doc p s').mp h
    rw [hp]
    rcases hs with hs | hs <;> simp [orStem, hs]
  · intro doc s hupd r d hr hd
    refine ⟨⟨orStem doc.meta.title doc.stem, orStem doc.meta.slug doc.stem, d, none,
      (conv init doc.body).1, build_excerpt doc.body⟩, (conv init doc.body).2, ?_, rfl⟩
    refine (mkPost_ok_iff init conv s doc _ _).mpr ⟨r, d, none, hr, hd, ?_, rfl, rfl⟩
    rw [hupd]
    rfl

theorem falsy_values_like_absent_witness :
    ∃ p s', mkPost 0 mdConvert 3 docFalsy = .ok (p, s') ∧ p.updated = none :=
  (falsy_values_like_absent 0 mdConvert).2.2.2 docFalsy 3 rfl
    (str "2024-05-06") ⟨2024, 5, 6⟩ rfl (by decide)

/-! ### Ordering (claim C3) -/

theorem postLE_trans : ∀ a b c : Post,
    postLE a b = true → postLE b c = true → postLE a c = true := by
  intro a b c
  simp only [postLE, decide_eq_true_eq]
  omega

theorem postLE_total : ∀ a b : Post, (postLE a b || postLE b a) = true := by
  intro a b
  simp only [postLE, Bool.or_eq_true, decide_eq_true_eq]
  omega

theorem pairwise_of_all {α : Type} (R : α → α → Prop) :
    ∀ l : List α, (∀ x ∈ l, ∀ y ∈ l, R x y) → l.Pairwise R := by
  intro l
  induction l with
  | nil => intro h; exact List.Pairwise.nil
  | cons a t ih =>
    intro h
    refine List.Pairwise.cons ?_ (ih ?_)
    · intro y hy
      exact h a (List.mem_cons_self _ _) y (List.mem_cons_of_mem _ hy)
    · intro x hx y hy
      exact h x (List.mem_cons_of_mem _ hx) y (List.mem_cons_of_mem _ hy)

/-- The sort is by date, descending. -/
theorem sortPosts_sorted (l : List Post) :
    (sortPosts l).Pairwise (fun p q => q.date.key ≤ p.date.key) := by
  have h := List.sorted_mergeSort postLE_trans postLE_total l
  exact h.imp (fun hpq => by
    have := hpq
    simp only [postLE, decide_eq_true_eq] at this
    exact this)

/-- The sort is stable: for any date, the posts carrying that date appear in
the output in exactly the order they had in the input. -/
theorem sortPosts_stable (l : List Post) (d : PyDate) :
    (sortPosts l).filter (fun p => p.date == d) = l.filter (fun p => p.date == d) := by
  have hall : ∀ x ∈ l.filter (fun p => p.date == d), x.date = d := by
    intro x hx
    have := (List.mem_filter.mp hx).2
    exact eq_of_beq this
  have hpw : (l.filter (fun p => p.date == d)).Pairwise (fun a b => postLE a b = true) := by
    refine pairwise_of_all _ _ ?_
    intro x hx y hy
    simp only [postLE, hall x hx, hall y hy, decide_eq_true_eq]
    exact Nat.le_refl _
  have hsub : List.Sublist (l.filter (fun p => p.date == d)) (sortPosts l) :=
    List.sublist_mergeSort postLE_trans postLE_total hpw (List.filter_sublist l)
  have hidem : (l.filter (fun p => p.date == d)).filter (fun p => p.date == d)
      = l.filter (fun p => p.date == d) :=
    List.filter_eq_self.mpr (fun a ha => (List.mem_filter.mp ha).2)
  have hsub2 : List.Sublist (l.filter (fun p => p.date == d))
      ((sortPosts l).filter (fun p => p.date == d)) :=
    hidem ▸ List.Sublist.filter (fun p => p.date == d) hsub
  have hperm : List.Perm ((sortPosts l).filter (fun p => p.date == d))
      (l.filter (fun p => p.date == d)) :=
    List.Perm.filter _ (List.mergeSort_perm l postLE)
  exact (List.Sublist.eq_of_length hsub2 hperm.length_eq.symm).symm

/-- Claim C3: a successful `load_posts` returns the stable descending sort
of the pre-sort post list: the result is sorted by date descending
(pairwise, each post's date key is at least the next one's) and posts with
equal dates keep exactly the relative order of the pre-sort list, which
itself follows the deterministic discovery order of the documents. -/
theorem posts_sorted_desc_stable {σ : Type} (init : σ) (conv : σ → Chars → Chars × σ)
    (docs : List Doc) (l : List Post)
    (h : collectPosts init conv docs init = .ok l) :
    load_posts init conv (some docs) = .ok (sortPosts l)
  ∧ (sortPosts l).Pairwise (fun p q => q.date.key ≤ p.date.key)
  ∧ ∀ d : PyDate, (sortPosts l).filter (fun p => p.date == d)
      = l.filter (fun p => p.date == d) := by
  refine ⟨?_, sortPosts_sorted l, fun d => sortPosts_stable l d⟩
  rw [load_posts, h]

theorem posts_sorted_desc_stable_witness :
    load_posts 0 mdConvert (some [docA, docB]) = .ok (sortPosts [postA, postB])
  ∧ ∀ d : PyDate, (sortPosts [postA, postB]).filter (fun p => p.date == d)
      = [postA, postB].filter (fun p => p.date == d) := by
  have h := posts_sorted_desc_stable 0 mdConvert [docA, docB] [postA, postB] (by decide)
  exact ⟨h.1, h.2.2⟩

/-! ### Sitemap URL construction (claim C6) -/

theorem rstripSlashes_of_no_trailing (b : Chars) (hb : b.getLast? ≠ some '/') :
    rstripSlashes b = b := by
  unfold rstripSlashes
  cases hrev : b.reverse with
  | nil =>
    have : b = [] := by
      have := congrArg List.reverse hrev
      simpa using this
    rw [this]
    rfl
  | cons c t =>
    have hc : c ≠ '/' := by
      intro hcontra
      apply hb
      rw [← List.head?_reverse, hrev, hcontra]
      rfl
    rw [List.dropWhile_cons, if_neg (by simp [hc])]
    rw [← hrev, List.reverse_reverse]

theorem lstripSlashes_route (r : Chars) (h : routeOneSlash r = true) :
    r = '/' :: lstripSlashes r := by
  unfold routeOneSlash at h
  simp only [Bool.and_eq_true, Bool.not_eq_true', decide_eq_true_eq,
    decide_eq_false_iff_not] at h
  obtain ⟨h1, h2⟩ := h
  cases r with
  | nil => simp at h1
  | cons c t =>
    obtain rfl : c = '/' := by simpa using h1
    cases t with
    | nil => simp [lstripSlashes, List.dropWhile_cons]
    | cons c2 t2 =>
      have hc2 : c2 ≠ '/' := by simpa using h2
      simp [lstripSlashes, List.dropWhile_cons, hc2]

/-- Claim C6: the sitemap resolves every route against the base URL with
exactly one slash between base and route, and emits one three-line
`<url><loc>` block per route, in exactly the order of the route list; the
route list `main` builds is the index route `/` followed by the post routes
in post order. -/
theorem sitemap_one_slash_per_route (b : Chars) (routes : List Chars)
    (hb : b.getLast? ≠ some '/') (hr : ∀ r ∈ routes, routeOneSlash r = true) :
    sitemapItems b routes = routes.map (fun r => b ++ r)
  ∧ generate_sitemap b routes
      = [str "<?xml version=\"1.0\" encoding=\"UTF-8\"?>",
         str "<urlset xmlns=\"http://www.sitemaps.org/schemas/sitemap/0.9\">"]
        ++ routes.flatMap (fun r =>
             [str "  <url>", str "    <loc>" ++ (b ++ r) ++ str "</loc>", str "  </url>"])
        ++ [str "</urlset>"]
  ∧ (∀ (posts : List Post) (t : Chars) (sd : Option Chars),
       (generate_posts posts t sd).2
         = posts.map (fun p => str "/posts/" ++ p.slug ++ str ".html")) := by
  have hitems : sitemapItems b routes = routes.map (fun r => b ++ r) := by
    unfold sitemapItems urljoin
    rw [rstripSlashes_of_no_trailing b hb]
    refine List.map_congr_left ?_
    intro r hrr
    conv_rhs => rw [lstripSlashes_route r (hr r hrr)]
    rw [List.append_assoc]
    rfl
  refine ⟨hitems, ?_, fun posts t sd => rfl⟩
  unfold generate_sitemap
  rw [hitems, List.flatMap, List.flatMap, List.map_map]
  rfl

theorem sitemap_one_slash_per_route_witness :
    sitemapItems (str "https://x.com") [str "/", str "/posts/a.html"]
      = [str "https://x.com/", str "https://x.com/posts/a.html"] := by
  have h := (sitemap_one_slash_per_route (str "https://x.com")
    [str "/", str "/posts/a.html"] (by decide) (by decide)).1
  rw [h]
  decide

end GenSite
